/-
  Verification of the resource-retrieval layer of lmcc-dev/i18n-maestro:
  the SimpleCache utility (src/utils/cache.ts), the BaseStorageAdapter
  (storage-adapter.ts) and the HttpAdapter (http-adapter.ts) are shallowly
  embedded below, and the spec's claims about them are settled as theorems.
-/
import Mathlib

set_option maxHeartbeats 1000000

namespace I18nMaestro

/-- A translation resource payload: an opaque finite string-keyed mapping.
The transport and cache layers never interpret it, so a flat association
list of string pairs is a faithful value-level model; the JS literal `{}`
is the empty list. -/
abbrev Payload := List (String × String)

/-- JS `Map.set` / object-property assignment on an association list:
replaces any existing binding of `k` and makes `(k, a)` the visible one. -/
def mapSet {K A : Type} [DecidableEq K] (l : List (K × A)) (k : K) (a : A) :
    List (K × A) :=
  (k, a) :: l.filter (fun p => !(p.1 == k))

/-- JS `Map.delete` / `delete obj[k]` on an association list. -/
def mapDelete {K A : Type} [DecidableEq K] (l : List (K × A)) (k : K) :
    List (K × A) :=
  l.filter (fun p => !(p.1 == k))

theorem lookup_filterOut_self {K A : Type} [DecidableEq K]
    (l : List (K × A)) (k : K) :
    (l.filter (fun p => !(p.1 == k))).lookup k = none := by
  induction l with
  | nil => rfl
  | cons p t ih =>
    obtain ⟨q, b⟩ := p
    by_cases hq : q = k
    · simpa [List.filter_cons, hq] using ih
    · have h2 : (k == q) = false := beq_false_of_ne (fun hc => hq hc.symm)
      simpa [List.filter_cons, beq_false_of_ne hq, List.lookup_cons, h2] using ih

theorem lookup_filterOut_ne {K A : Type} [DecidableEq K]
    (l : List (K × A)) (k k' : K) (h : k' ≠ k) :
    (l.filter (fun p => !(p.1 == k))).lookup k' = l.lookup k' := by
  induction l with
  | nil => rfl
  | cons p t ih =>
    obtain ⟨q, b⟩ := p
    by_cases hq : q = k
    · have h1 : (k' == q) = false := beq_false_of_ne (hq ▸ h)
      simpa [List.filter_cons, hq, List.lookup_cons, h1, beq_false_of_ne h] using ih
    · by_cases hq' : k' = q
      · simp [List.filter_cons, beq_false_of_ne hq, List.lookup_cons, hq']
      · have h2 : (k' == q) = false := beq_false_of_ne hq'
        simpa [List.filter_cons, beq_false_of_ne hq, List.lookup_cons, h2] using ih

theorem mapSet_lookup_self {K A : Type} [DecidableEq K]
    (l : List (K × A)) (k : K) (a : A) :
    (mapSet l k a).lookup k = some a := by
  simp [mapSet, List.lookup_cons]

theorem mapSet_lookup_ne {K A : Type} [DecidableEq K]
    (l : List (K × A)) (k k' : K) (a : A) (h : k' ≠ k) :
    (mapSet l k a).lookup k' = l.lookup k' := by
  rw [mapSet, List.lookup_cons]
  simp only [beq_false_of_ne h]
  exact lookup_filterOut_ne l k k' h

theorem mapDelete_lookup_self {K A : Type} [DecidableEq K]
    (l : List (K × A)) (k : K) :
    (mapDelete l k).lookup k = none :=
  lookup_filterOut_self l k

theorem mapDelete_lookup_ne {K A : Type} [DecidableEq K]
    (l : List (K × A)) (k k' : K) (h : k' ≠ k) :
    (mapDelete l k).lookup k' = l.lookup k' :=
  lookup_filterOut_ne l k k' h

/-! ## SimpleCache (src/utils/cache.ts)

`Date.now()` is modelled by an explicit `now : Nat` argument at each call,
and the optional `maxAge` parameter by `Option Nat` (`none` = omitted). -/

/-- One entry of `SimpleCache`'s internal map: `{ value: V; expiry?: number }`. -/
structure CacheItem (V : Type) where
  value : V
  expiry : Option Nat
deriving DecidableEq, Repr

/-- `SimpleCache<K, V>`: the internal `Map` plus the constructor's
`defaultMaxAge` field (constructor default `0`). -/
structure SimpleCache (K V : Type) where
  defaultMaxAge : Nat
  cache : List (K × CacheItem V)
deriving DecidableEq, Repr

namespace SimpleCache

variable {K V : Type} [DecidableEq K]

/-- `set(key, value, maxAge?)`: `expiryMs` falls back to `defaultMaxAge`
when `maxAge` is omitted; `expiry` is `now + expiryMs` when `expiryMs > 0`,
otherwise `undefined`. -/
def set (c : SimpleCache K V) (now : Nat) (key : K) (value : V)
    (maxAge : Option Nat) : SimpleCache K V :=
  let expiryMs := maxAge.getD c.defaultMaxAge
  let expiry := if expiryMs > 0 then some (now + expiryMs) else none
  { c with cache := mapSet c.cache key ⟨value, expiry⟩ }

/-- `get(key)`: returns `undefined` on a missing key; on `expiry < Date.now()`
deletes the entry and returns `undefined`; otherwise returns the stored
`item.value` itself (no copy is taken). Returns the possibly-changed cache
alongside the result. -/
def get (c : SimpleCache K V) (now : Nat) (key : K) :
    Option V × SimpleCache K V :=
  match c.cache.lookup key with
  | none => (none, c)
  | some item =>
    match item.expiry with
    | some e =>
      if e < now then (none, { c with cache := mapDelete c.cache key })
      else (some item.value, c)
    | none => (some item.value, c)

end SimpleCache

/-! ## HttpAdapter error classification (http-adapter.ts)

The source messages are Chinese strings; the model uses short English
placeholders since no claim depends on message text. -/

/-- `HttpErrorType` enum. -/
inductive HttpErrorType where
  | network
  | timeout
  | auth
  | not_found
  | server
  | parse
  | unknown
deriving DecidableEq, Repr

/-- `HttpAdapterError` structured error object (the `originalError` field
carries an arbitrary JS value and is dropped from the model). -/
structure HttpAdapterError where
  type : HttpErrorType
  message : String
  url : String
  status : Option Nat
  retryable : Bool
deriving DecidableEq, Repr

/-- `isRetryableStatusCode`: 5xx and 429 are retryable. -/
def isRetryableStatusCode (statusCode : Nat) : Bool :=
  statusCode ≥ 500 || statusCode == 429

/-- JS `Response.ok`: status in the inclusive range 200–299. -/
def responseOk (status : Nat) : Bool :=
  200 ≤ status && status ≤ 299

/-- `createHttpError(statusCode, message, url)`: classifies an HTTP status
into a structured error. Mirrors the if/else-if chain of the source:
404 → not_found, 401/403 → auth, ≥500 → server (retryable), anything
else keeps the initial `unknown` / `retryable = false`. -/
def createHttpError (statusCode : Nat) (message url : String) :
    HttpAdapterError :=
  let td : HttpErrorType × Bool :=
    if statusCode == 404 then (HttpErrorType.not_found, false)
    else if statusCode == 401 || statusCode == 403 then (HttpErrorType.auth, false)
    else if statusCode ≥ 500 then (HttpErrorType.server, true)
    else (HttpErrorType.unknown, false)
  { type := td.1, message := message, url := url,
    status := some statusCode, retryable := td.2 }

/-- `createError(error, url, type, customMessage?)`: wraps a thrown error.
`retryable` starts false and is set true for timeout and network errors
(parse errors keep false). `status` is left `undefined`. -/
def createError (url : String) (type : HttpErrorType) (message : String) :
    HttpAdapterError :=
  let retryable :=
    if type = HttpErrorType.timeout then true
    else if type = HttpErrorType.network then true
    else false
  { type := type, message := message, url := url,
    status := none, retryable := retryable }

/-! ## fetchWithTimeout: the retrying transport -/

/-- The options of `HttpAdapter` that govern the retry/caching behaviour
modelled here. `fetchDefaults` matches the defaults merged in the
constructor. -/
structure HttpCfg where
  maxRetries : Nat
  retryDelay : Nat
  useExponentialBackoff : Bool
  autoHandleStatusErrors : Bool
  allowSaving : Bool
deriving DecidableEq, Repr

/-- Constructor defaults: maxRetries 3, retryDelay 300, exponential
backoff on, auto status handling on, saving not allowed. -/
def fetchDefaults : HttpCfg :=
  { maxRetries := 3, retryDelay := 300, useExponentialBackoff := true,
    autoHandleStatusErrors := true, allowSaving := false }

/-- The observable outcome of one underlying `fetch` attempt: a response
with some status code, a network error (`TypeError`), or an abort from
the per-attempt timeout (`AbortError`). -/
inductive AttemptResult where
  | resp (status : Nat)
  | netErr
  | timeoutErr
deriving DecidableEq, Repr

/-- What one `fetchWithTimeout` invocation did: how many underlying fetch
attempts ran, the inter-attempt waits performed (in order, in ms), and
the final result — a returned response status (`Except.ok`, even when the
status is an error status: the source returns the `Response` object) or a
thrown structured error (`Except.error`). -/
structure FetchTrace where
  attempts : Nat
  waits : List Nat
  result : Except HttpAdapterError Nat
deriving Repr

/-- `fetchWithTimeout(url, options, retries, delay)`. The underlying
`fetch` is modelled by `oracle`, giving the outcome of each attempt by
index (`attempt` starts at 0 and increments on each recursion). On a
response: when `autoHandleStatusErrors` is on, the response is non-ok,
retries remain and the status is retryable, it waits `delay` and recurses
with `retries - 1` and the doubled (or constant) delay; otherwise the
response is returned as-is. On a thrown timeout/network error it retries
the same way, and with no budget left throws the classified error. -/
def fetchWithTimeout (cfg : HttpCfg) (oracle : Nat → AttemptResult)
    (url : String) : Nat → Nat → Nat → FetchTrace
  | retries, attempt, delay =>
    let nextDelay := if cfg.useExponentialBackoff then delay * 2 else delay
    match oracle attempt, retries with
    | AttemptResult.resp status, r + 1 =>
      if cfg.autoHandleStatusErrors && !responseOk status
          && isRetryableStatusCode status then
        let rest := fetchWithTimeout cfg oracle url r (attempt + 1) nextDelay
        { attempts := rest.attempts + 1, waits := delay :: rest.waits,
          result := rest.result }
      else { attempts := 1, waits := [], result := Except.ok status }
    | AttemptResult.resp status, 0 =>
      { attempts := 1, waits := [], result := Except.ok status }
    | AttemptResult.netErr, r + 1 =>
      let rest := fetchWithTimeout cfg oracle url r (attempt + 1) nextDelay
      { attempts := rest.attempts + 1, waits := delay :: rest.waits,
        result := rest.result }
    | AttemptResult.netErr, 0 =>
      { attempts := 1, waits := [],
        result := Except.error (createError url HttpErrorType.network
          "network connection failed") }
    | AttemptResult.timeoutErr, r + 1 =>
      let rest := fetchWithTimeout cfg oracle url r (attempt + 1) nextDelay
      { attempts := rest.attempts + 1, waits := delay :: rest.waits,
        result := rest.result }
    | AttemptResult.timeoutErr, 0 =>
      { attempts := 1, waits := [],
        result := Except.error (createError url HttpErrorType.timeout
          "request timed out") }

/-- A fetch result counts as a success only when a response was returned
and its status is in the 2xx range. -/
def successfulResponse : Except HttpAdapterError Nat → Bool
  | Except.ok s => responseOk s
  | Except.error _ => false

/-- An attempt outcome on which the transport's retry condition fires
(given budget): a thrown network/timeout error, or — with automatic
status handling on — a non-ok response with a retryable status. -/
def RetryableOutcome (cfg : HttpCfg) : AttemptResult → Prop
  | AttemptResult.resp s =>
      cfg.autoHandleStatusErrors = true ∧ responseOk s = false ∧
      isRetryableStatusCode s = true
  | AttemptResult.netErr => True
  | AttemptResult.timeoutErr => True

/-- The inter-attempt waits the transport performs when every attempt
fails retryably: `retries` waits starting at `delay`, doubled each time
when exponential backoff is on. -/
def backoffWaits (useExp : Bool) : Nat → Nat → List Nat
  | 0, _ => []
  | r + 1, d => d :: backoffWaits useExp r (if useExp then d * 2 else d)

theorem fetch_all_retryable (cfg : HttpCfg) (oracle : Nat → AttemptResult)
    (url : String) (h : ∀ i, RetryableOutcome cfg (oracle i)) :
    ∀ retries attempt delay,
      (fetchWithTimeout cfg oracle url retries attempt delay).attempts
          = retries + 1 ∧
      (fetchWithTimeout cfg oracle url retries attempt delay).waits
          = backoffWaits cfg.useExponentialBackoff retries delay ∧
      successfulResponse
          (fetchWithTimeout cfg oracle url retries attempt delay).result
          = false := by
  intro retries
  induction retries with
  | zero =>
    intro attempt delay
    have hr := h attempt
    cases hor : oracle attempt with
    | resp s =>
      rw [hor] at hr
      obtain ⟨_, h2, _⟩ := hr
      simp [fetchWithTimeout, hor, backoffWaits, successfulResponse, h2]
    | netErr => simp [fetchWithTimeout, hor, backoffWaits, successfulResponse]
    | timeoutErr => simp [fetchWithTimeout, hor, backoffWaits, successfulResponse]
  | succ r ih =>
    intro attempt delay
    have hr := h attempt
    cases hor : oracle attempt with
    | resp s =>
      rw [hor] at hr
      obtain ⟨h1, h2, h3⟩ := hr
      have := ih (attempt + 1) (if cfg.useExponentialBackoff then delay * 2 else delay)
      simp [fetchWithTimeout, hor, h1, h2, h3, backoffWaits, this.1, this.2.1, this.2.2]
    | netErr =>
      have := ih (attempt + 1) (if cfg.useExponentialBackoff then delay * 2 else delay)
      simp [fetchWithTimeout, hor, backoffWaits, this.1, this.2.1, this.2.2]
    | timeoutErr =>
      have := ih (attempt + 1) (if cfg.useExponentialBackoff then delay * 2 else delay)
      simp [fetchWithTimeout, hor, backoffWaits, this.1, this.2.1, this.2.2]

/-- Claim C2: with maxRetries=3, initial retryDelay=300ms and exponential
backoff enabled (the constructor defaults), a transport whose every
attempt fails with a retryable classification performs exactly 4 attempts
(1 initial + 3 retries), with inter-attempt waits 300, 600 and 1200 ms,
and does not produce a successful response. -/
theorem C2_retry_budget_and_backoff (oracle : Nat → AttemptResult)
    (url : String) (h : ∀ i, RetryableOutcome fetchDefaults (oracle i)) :
    (fetchWithTimeout fetchDefaults oracle url fetchDefaults.maxRetries 0
        fetchDefaults.retryDelay).attempts = 4 ∧
    (fetchWithTimeout fetchDefaults oracle url fetchDefaults.maxRetries 0
        fetchDefaults.retryDelay).waits = [300, 600, 1200] ∧
    successfulResponse
        (fetchWithTimeout fetchDefaults oracle url fetchDefaults.maxRetries 0
          fetchDefaults.retryDelay).result = false := by
  have hall := fetch_all_retryable fetchDefaults oracle url h
    fetchDefaults.maxRetries 0 fetchDefaults.retryDelay
  refine ⟨hall.1, ?_, hall.2.2⟩
  rw [hall.2.1]
  rfl

/-- Witness for C2 at the always-network-error transport. -/
theorem C2_retry_budget_and_backoff_witness :
    (∀ i, RetryableOutcome fetchDefaults
        ((fun (_ : Nat) => AttemptResult.netErr) i)) ∧
    ((fetchWithTimeout fetchDefaults (fun (_ : Nat) => AttemptResult.netErr) "u"
        fetchDefaults.maxRetries 0 fetchDefaults.retryDelay).attempts = 4 ∧
      (fetchWithTimeout fetchDefaults (fun (_ : Nat) => AttemptResult.netErr) "u"
        fetchDefaults.maxRetries 0 fetchDefaults.retryDelay).waits
          = [300, 600, 1200] ∧
      successfulResponse
        (fetchWithTimeout fetchDefaults (fun (_ : Nat) => AttemptResult.netErr) "u"
          fetchDefaults.maxRetries 0 fetchDefaults.retryDelay).result
          = false) :=
  ⟨fun _ => trivial,
    C2_retry_budget_and_backoff (fun (_ : Nat) => AttemptResult.netErr) "u"
      (fun _ => trivial)⟩

/-- Claim C3 (counterexample): the error classifier maps an HTTP 429
failure to `retryable = false` with kind `unknown` — not to a retryable
`too_many_requests` error as the claim states (no such kind exists in
`HttpErrorType`). -/
theorem C3_429_counterexample :
    (createHttpError 429 "too many requests" "u").retryable = false ∧
    (createHttpError 429 "too many requests" "u").type
        = HttpErrorType.unknown :=
  ⟨rfl, rfl⟩

/-- Claim C3 (amended): HTTP status 429 is considered retryable by the
transport's retry check (`isRetryableStatusCode`), but the structured
error the classifier produces for a 429 response falls through to kind
`unknown` with `retryable = false`; `HttpErrorType` has no
too_many_requests kind. -/
theorem C3_429_classification (msg url : String) :
    isRetryableStatusCode 429 = true ∧
    (createHttpError 429 msg url).type = HttpErrorType.unknown ∧
    (createHttpError 429 msg url).retryable = false :=
  ⟨rfl, rfl, rfl⟩

/-- Claim C4: a 404 response is returned after exactly one attempt — no
wait, no retry budget consumed — and classifies as `not_found` with
`retryable = false`. -/
theorem C4_not_found_short_circuit (oracle : Nat → AttemptResult)
    (url msg : String) (h : oracle 0 = AttemptResult.resp 404) :
    (fetchWithTimeout fetchDefaults oracle url fetchDefaults.maxRetries 0
        fetchDefaults.retryDelay).attempts = 1 ∧
    (fetchWithTimeout fetchDefaults oracle url fetchDefaults.maxRetries 0
        fetchDefaults.retryDelay).waits = [] ∧
    (fetchWithTimeout fetchDefaults oracle url fetchDefaults.maxRetries 0
        fetchDefaults.retryDelay).result = Except.ok 404 ∧
    (createHttpError 404 msg url).type = HttpErrorType.not_found ∧
    (createHttpError 404 msg url).retryable = false := by
  refine ⟨?_, ?_, ?_, rfl, rfl⟩ <;>
    simp [fetchWithTimeout, h, isRetryableStatusCode, fetchDefaults]

/-- Witness for C4 at the always-404 transport. -/
theorem C4_not_found_short_circuit_witness :
    ((fun (_ : Nat) => AttemptResult.resp 404) 0 = AttemptResult.resp 404) ∧
    ((fetchWithTimeout fetchDefaults (fun (_ : Nat) => AttemptResult.resp 404) "u"
        fetchDefaults.maxRetries 0 fetchDefaults.retryDelay).attempts = 1 ∧
      (fetchWithTimeout fetchDefaults (fun (_ : Nat) => AttemptResult.resp 404) "u"
        fetchDefaults.maxRetries 0 fetchDefaults.retryDelay).waits = [] ∧
      (fetchWithTimeout fetchDefaults (fun (_ : Nat) => AttemptResult.resp 404) "u"
        fetchDefaults.maxRetries 0 fetchDefaults.retryDelay).result
          = Except.ok 404 ∧
      (createHttpError 404 "not found" "u").type = HttpErrorType.not_found ∧
      (createHttpError 404 "not found" "u").retryable = false) :=
  ⟨rfl, C4_not_found_short_circuit (fun (_ : Nat) => AttemptResult.resp 404)
    "u" "not found" rfl⟩

/-! ## BaseStorageAdapter + HttpAdapter (value level)

The adapter methods are `async` but single-threaded between suspension
points; each call is modelled as a pure state transformer. The response
body handed to `response.json()` is supplied as an explicit parameter
(`Except Unit …`, `Except.error` = the body failed to decode). The
modelled client has no custom `parseResponse`/`handleError`/
`getResourceUrl` overrides, matching the defaults. `JSON.parse(
JSON.stringify(x))` is the identity at value level; aliasing is treated
separately in the heap model below. -/

/-- `getCacheKey(lang, namespace)`: the template string
`lang + "." + namespace`. -/
def getCacheKey (lang namespace_ : String) : String :=
  lang ++ "." ++ namespace_

/-- The `BaseStorageAdapter` fields: the resource cache (cache key →
payload) and the `cacheEnabled` flag (default true). -/
structure AdapterState where
  cache : List (String × Payload)
  cacheEnabled : Bool
deriving DecidableEq, Repr

/-- `HttpAdapter.loadResource(lang, namespace)` with no custom
`parseResponse`/`handleError` configured: fetches with retry; any thrown
transport error, thrown `createHttpError` on a non-ok response, or body
parse failure is caught and turned into the empty payload `{}`. -/
def loadResource (cfg : HttpCfg) (oracle : Nat → AttemptResult)
    (url : String) (body : Except Unit Payload) : Payload :=
  let t := fetchWithTimeout cfg oracle url cfg.maxRetries 0 cfg.retryDelay
  match t.result with
  | Except.error _ => []          -- catch → console.error → return {}
  | Except.ok status =>
    if !responseOk status then [] -- throw createHttpError → caught → {}
    else
      match body with
      | Except.ok p => p          -- await response.json()
      | Except.error _ => []      -- parse throws → caught → {}

/-- `HttpAdapter.getLanguages()`: fetch the languages URL; on any thrown
error return `[]`; a non-ok response throws (caught → `[]`); a body that
is neither an array nor `{ languages: [...] }` logs a warning and yields
`[]`. The decoded body is modelled as `Except.ok (some list)` for either
accepted shape, `Except.ok none` for an unexpected shape and
`Except.error ()` for a `json()` failure. -/
def getLanguages (cfg : HttpCfg) (oracle : Nat → AttemptResult)
    (url : String) (body : Except Unit (Option (List String))) :
    List String :=
  let t := fetchWithTimeout cfg oracle url cfg.maxRetries 0 cfg.retryDelay
  match t.result with
  | Except.error _ => []
  | Except.ok status =>
    if !responseOk status then []
    else
      match body with
      | Except.ok (some langs) => langs
      | Except.ok none => []
      | Except.error _ => []

/-- `HttpAdapter.getNamespaces()`: identical structure to `getLanguages`,
over the namespaces URL and the `{ namespaces: [...] }` shape. -/
def getNamespaces (cfg : HttpCfg) (oracle : Nat → AttemptResult)
    (url : String) (body : Except Unit (Option (List String))) :
    List String :=
  let t := fetchWithTimeout cfg oracle url cfg.maxRetries 0 cfg.retryDelay
  match t.result with
  | Except.error _ => []
  | Except.ok status =>
    if !responseOk status then []
    else
      match body with
      | Except.ok (some nss) => nss
      | Except.ok none => []
      | Except.error _ => []

/-- Result of `BaseStorageAdapter.getResource`: the returned payload, the
adapter state afterwards, and how many underlying fetch attempts ran
(0 = served from cache, no network touched). -/
structure GetResult where
  payload : Payload
  state : AdapterState
  networkAttempts : Nat
deriving Repr

/-- `BaseStorageAdapter.getResource(lang, namespace)` composed with
`HttpAdapter.loadResource`: on `cacheEnabled && this.cache[cacheKey]`
(any stored object is truthy in JS, including `{}`) the cached payload is
returned with no network activity; otherwise `loadResource` runs (which,
with no custom handler, never throws) and its result is stored in the
cache when caching is enabled and returned. -/
def getResource (cfg : HttpCfg) (st : AdapterState)
    (oracle : Nat → AttemptResult) (url : String)
    (body : Except Unit Payload) (lang namespace_ : String) : GetResult :=
  let cacheKey := getCacheKey lang namespace_
  match st.cacheEnabled, st.cache.lookup cacheKey with
  | true, some p => { payload := p, state := st, networkAttempts := 0 }
  | _, _ =>
    let t := fetchWithTimeout cfg oracle url cfg.maxRetries 0 cfg.retryDelay
    let resources := loadResource cfg oracle url body
    { payload := resources,
      state :=
        if st.cacheEnabled then
          { st with cache := mapSet st.cache cacheKey resources }
        else st,
      networkAttempts := t.attempts }

/-- A save failure: the configuration error thrown when `allowSaving` is
off, or the (re-thrown) structured error of a failed HTTP round trip. -/
inductive SaveError where
  | notAllowed
  | http (e : HttpAdapterError)
deriving DecidableEq, Repr

/-- `HttpAdapter.persistResource(lang, namespace, data)`: with
`allowSaving` off it throws the configuration error before any network
activity; otherwise it fetches (PUT) and throws `createHttpError` on a
non-ok response. Returns the outcome and the number of fetch attempts. -/
def persistResource (cfg : HttpCfg) (oracle : Nat → AttemptResult)
    (url : String) : Except SaveError Unit × Nat :=
  if !cfg.allowSaving then (Except.error SaveError.notAllowed, 0)
  else
    let t := fetchWithTimeout cfg oracle url cfg.maxRetries 0 cfg.retryDelay
    match t.result with
    | Except.error e => (Except.error (SaveError.http e), t.attempts)
    | Except.ok status =>
      if !responseOk status then
        (Except.error (SaveError.http (createHttpError status
          "failed to save resource" url)), t.attempts)
      else (Except.ok (), t.attempts)

/-- `BaseStorageAdapter.saveResource(lang, namespace, data)`: calls
`persistResource`; on success updates the cache entry (when caching is
enabled) with a copy of `data`; on failure re-throws and leaves the cache
untouched. -/
def saveResource (cfg : HttpCfg) (st : AdapterState)
    (oracle : Nat → AttemptResult) (url : String)
    (lang namespace_ : String) (data : Payload) :
    Except SaveError Unit × AdapterState × Nat :=
  match persistResource cfg oracle url with
  | (Except.error e, n) => (Except.error e, st, n)
  | (Except.ok (), n) =>
    let cacheKey := getCacheKey lang namespace_
    (Except.ok (),
      if st.cacheEnabled then
        { st with cache := mapSet st.cache cacheKey data }
      else st,
      n)

/-- JS truthiness of an optional string argument: `undefined` and the
empty string are falsy, every other string is truthy. -/
def jsTruthy : Option String → Bool
  | none => false
  | some s => !(s == "")

/-- `BaseStorageAdapter.clearCache(lang?, namespace?)`: the source
dispatches on `if (lang && namespace) … else if (lang) … else …`, where
a missing argument and the empty string are both falsy. With both
arguments truthy it deletes the one entry; with only a truthy language
it deletes every key that starts with `lang + "."`; otherwise it empties
the cache (so `clearCache("en", "")` group-clears `en.*` and
`clearCache("", ns)` clears everything). -/
def clearCache (st : AdapterState) (lang namespace_ : Option String) :
    AdapterState :=
  let la := lang.getD ""
  let ns := namespace_.getD ""
  if jsTruthy lang && jsTruthy namespace_ then
    { st with cache := mapDelete st.cache (getCacheKey la ns) }
  else if jsTruthy lang then
    { st with cache := st.cache.filter (fun p => !(la ++ ".").data.isPrefixOf p.1.data) }
  else
    { st with cache := [] }

/-- An unrecoverable fetch failure for `loadResource`: the retrying
transport did not end in a 2xx response, or the response body failed to
decode. -/
def LoadFails (cfg : HttpCfg) (oracle : Nat → AttemptResult) (url : String)
    (body : Except Unit Payload) : Prop :=
  successfulResponse
      (fetchWithTimeout cfg oracle url cfg.maxRetries 0 cfg.retryDelay).result
      = false ∨
  body = Except.error ()

theorem loadResource_empty_of_failure (cfg : HttpCfg)
    (oracle : Nat → AttemptResult) (url : String)
    (body : Except Unit Payload) (hfail : LoadFails cfg oracle url body) :
    loadResource cfg oracle url body = [] := by
  unfold loadResource
  cases hres : (fetchWithTimeout cfg oracle url cfg.maxRetries 0
      cfg.retryDelay).result with
  | error e => simp [hres]
  | ok status =>
    rcases hfail with hf | hf
    · rw [hres] at hf
      simp only [successfulResponse] at hf
      simp [hres, hf]
    · subst hf
      cases hok : responseOk status <;> simp [hres, hok]

/-- Claim C5: with no custom error handler configured, an unrecoverably
failing fetch makes `getResource` return the empty payload `{}` instead
of propagating the error, and `getLanguages`/`getNamespaces` return the
empty list on any failure (thrown transport error, non-ok response,
undecodable or unexpectedly-shaped body). -/
theorem C5_graceful_degradation (cfg : HttpCfg) (st : AdapterState)
    (oracle : Nat → AttemptResult) (url : String)
    (body : Except Unit Payload) (lang namespace_ : String)
    (lbody nbody : Except Unit (Option (List String)))
    (hmiss : st.cacheEnabled = false ∨
      st.cache.lookup (getCacheKey lang namespace_) = none)
    (hfail : LoadFails cfg oracle url body)
    (hlfail : successfulResponse (fetchWithTimeout cfg oracle url
        cfg.maxRetries 0 cfg.retryDelay).result = false ∨
      lbody = Except.error () ∨ lbody = Except.ok none)
    (hnfail : successfulResponse (fetchWithTimeout cfg oracle url
        cfg.maxRetries 0 cfg.retryDelay).result = false ∨
      nbody = Except.error () ∨ nbody = Except.ok none) :
    (getResource cfg st oracle url body lang namespace_).payload = [] ∧
    getLanguages cfg oracle url lbody = [] ∧
    getNamespaces cfg oracle url nbody = [] := by
  refine ⟨?_, ?_, ?_⟩
  · have hload := loadResource_empty_of_failure cfg oracle url body hfail
    unfold getResource
    rcases hmiss with hce | hlk
    · simp [hce, hload]
    · cases hce : st.cacheEnabled <;> simp [hce, hlk, hload]
  · unfold getLanguages
    cases hres : (fetchWithTimeout cfg oracle url cfg.maxRetries 0
        cfg.retryDelay).result with
    | error e => simp [hres]
    | ok status =>
      rcases hlfail with hf | hf | hf
      · rw [hres] at hf
        simp only [successfulResponse] at hf
        simp [hres, hf]
      · subst hf
        cases hok : responseOk status <;> simp [hres, hok]
      · subst hf
        cases hok : responseOk status <;> simp [hres, hok]
  · unfold getNamespaces
    cases hres : (fetchWithTimeout cfg oracle url cfg.maxRetries 0
        cfg.retryDelay).result with
    | error e => simp [hres]
    | ok status =>
      rcases hnfail with hf | hf | hf
      · rw [hres] at hf
        simp only [successfulResponse] at hf
        simp [hres, hf]
      · subst hf
        cases hok : responseOk status <;> simp [hres, hok]
      · subst hf
        cases hok : responseOk status <;> simp [hres, hok]

/-- Witness for C5: empty cache, transport that always times out. -/
theorem C5_graceful_degradation_witness :
    ((⟨[], true⟩ : AdapterState).cacheEnabled = false ∨
      (⟨[], true⟩ : AdapterState).cache.lookup (getCacheKey "en" "t")
        = none) ∧
    LoadFails fetchDefaults (fun (_ : Nat) => AttemptResult.timeoutErr) "u"
      (Except.ok [("a", "1")]) ∧
    ((getResource fetchDefaults ⟨[], true⟩
        (fun (_ : Nat) => AttemptResult.timeoutErr) "u"
        (Except.ok [("a", "1")]) "en" "t").payload = [] ∧
      getLanguages fetchDefaults (fun (_ : Nat) => AttemptResult.timeoutErr)
        "u" (Except.ok (some ["en"])) = [] ∧
      getNamespaces fetchDefaults (fun (_ : Nat) => AttemptResult.timeoutErr)
        "u" (Except.ok (some ["t"])) = []) := by
  refine ⟨Or.inr rfl, Or.inl rfl, ?_⟩
  exact C5_graceful_degradation fetchDefaults ⟨[], true⟩
    (fun (_ : Nat) => AttemptResult.timeoutErr) "u" (Except.ok [("a", "1")])
    "en" "t" (Except.ok (some ["en"])) (Except.ok (some ["t"]))
    (Or.inr rfl) (Or.inl rfl) (Or.inl rfl) (Or.inl rfl)

/-- Claim C6: with `allowSaving = false`, `saveResource` fails with the
configuration error, which is surfaced to the caller; zero fetch attempts
are made and the adapter state (cache) is unchanged. -/
theorem C6_allowSaving_gate (cfg : HttpCfg) (st : AdapterState)
    (oracle : Nat → AttemptResult) (url lang namespace_ : String)
    (data : Payload) (h : cfg.allowSaving = false) :
    saveResource cfg st oracle url lang namespace_ data
      = (Except.error SaveError.notAllowed, st, 0) := by
  simp [saveResource, persistResource, h]

/-- Witness for C6 at the default configuration (saving disallowed). -/
theorem C6_allowSaving_gate_witness :
    fetchDefaults.allowSaving = false ∧
    saveResource fetchDefaults ⟨[], true⟩
        (fun (_ : Nat) => AttemptResult.resp 200) "u" "en" "t" [("a", "1")]
      = (Except.error SaveError.notAllowed, ⟨[], true⟩, 0) :=
  ⟨rfl, C6_allowSaving_gate fetchDefaults ⟨[], true⟩
    (fun (_ : Nat) => AttemptResult.resp 200) "u" "en" "t" [("a", "1")] rfl⟩

/-- Claim C7: with caching enabled and saving allowed, a successful
`saveResource` followed by `getResource` for the same (language,
namespace) returns exactly the saved payload from the cache, with no
further network attempt, whatever the later transport would do. -/
theorem C7_write_through (cfg : HttpCfg) (st : AdapterState)
    (oracle : Nat → AttemptResult) (url lang namespace_ : String)
    (data : Payload) (hce : st.cacheEnabled = true)
    (hallow : cfg.allowSaving = true)
    (hok : successfulResponse (fetchWithTimeout cfg oracle url
        cfg.maxRetries 0 cfg.retryDelay).result = true) :
    (saveResource cfg st oracle url lang namespace_ data).1
      = Except.ok () ∧
    ∀ (oracle2 : Nat → AttemptResult) (url2 : String)
      (body2 : Except Unit Payload),
      (getResource cfg (saveResource cfg st oracle url lang namespace_
          data).2.1 oracle2 url2 body2 lang namespace_).payload = data ∧
      (getResource cfg (saveResource cfg st oracle url lang namespace_
          data).2.1 oracle2 url2 body2 lang namespace_).networkAttempts
        = 0 := by
  have hsave : saveResource cfg st oracle url lang namespace_ data
      = (Except.ok (),
          AdapterState.mk
            (mapSet st.cache (getCacheKey lang namespace_) data) true,
          (fetchWithTimeout cfg oracle url cfg.maxRetries 0
            cfg.retryDelay).attempts) := by
    cases hres : (fetchWithTimeout cfg oracle url cfg.maxRetries 0
        cfg.retryDelay).result with
    | error e =>
      rw [hres] at hok
      simp [successfulResponse] at hok
    | ok status =>
      rw [hres] at hok
      simp only [successfulResponse] at hok
      simp [saveResource, persistResource, hallow, hres, hok, hce]
  refine ⟨by rw [hsave], ?_⟩
  intro oracle2 url2 body2
  rw [hsave]
  simp only [getResource]
  have hlk : (mapSet st.cache (getCacheKey lang namespace_) data).lookup
      (getCacheKey lang namespace_) = some data :=
    mapSet_lookup_self _ _ _
  simp [hce, hlk]

/-- Witness for C7: empty cache, default config with saving allowed,
transport answering 200. -/
theorem C7_write_through_witness :
    (⟨[], true⟩ : AdapterState).cacheEnabled = true ∧
    ({ fetchDefaults with allowSaving := true }).allowSaving = true ∧
    successfulResponse (fetchWithTimeout
        { fetchDefaults with allowSaving := true }
        (fun (_ : Nat) => AttemptResult.resp 200) "u"
        ({ fetchDefaults with allowSaving := true }).maxRetries 0
        ({ fetchDefaults with allowSaving := true }).retryDelay).result
      = true ∧
    (getResource { fetchDefaults with allowSaving := true }
        (saveResource { fetchDefaults with allowSaving := true } ⟨[], true⟩
          (fun (_ : Nat) => AttemptResult.resp 200) "u" "en" "t"
          [("a", "1")]).2.1
        (fun (_ : Nat) => AttemptResult.timeoutErr) "u2"
        (Except.error ()) "en" "t").payload = [("a", "1")] := by
  refine ⟨rfl, rfl, rfl, ?_⟩
  exact ((C7_write_through { fetchDefaults with allowSaving := true }
    ⟨[], true⟩ (fun (_ : Nat) => AttemptResult.resp 200) "u" "en" "t"
    [("a", "1")] rfl rfl rfl).2
    (fun (_ : Nat) => AttemptResult.timeoutErr) "u2" (Except.error ())).1

/-- Claim C10: with caching enabled and no custom error handler, a
`getResource` whose fetch fails unrecoverably stores the empty fallback
payload `{}` in the cache, so every subsequent `getResource` for the same
pair returns `{}` from the cache with zero network attempts and leaves
the state unchanged. -/
theorem C10_empty_fallback_cached (cfg : HttpCfg) (st : AdapterState)
    (oracle : Nat → AttemptResult) (url : String)
    (body : Except Unit Payload) (lang namespace_ : String)
    (hce : st.cacheEnabled = true)
    (hmiss : st.cache.lookup (getCacheKey lang namespace_) = none)
    (hfail : LoadFails cfg oracle url body) :
    (getResource cfg st oracle url body lang namespace_).payload = [] ∧
    (getResource cfg st oracle url body lang
        namespace_).state.cache.lookup (getCacheKey lang namespace_)
      = some [] ∧
    ∀ (oracle2 : Nat → AttemptResult) (url2 : String)
      (body2 : Except Unit Payload),
      (getResource cfg (getResource cfg st oracle url body lang
          namespace_).state oracle2 url2 body2 lang namespace_).payload
        = [] ∧
      (getResource cfg (getResource cfg st oracle url body lang
          namespace_).state oracle2 url2 body2 lang
          namespace_).networkAttempts = 0 ∧
      (getResource cfg (getResource cfg st oracle url body lang
          namespace_).state oracle2 url2 body2 lang namespace_).state
        = (getResource cfg st oracle url body lang namespace_).state := by
  have hload := loadResource_empty_of_failure cfg oracle url body hfail
  have hget : getResource cfg st oracle url body lang namespace_
      = GetResult.mk []
          (AdapterState.mk
            (mapSet st.cache (getCacheKey lang namespace_) []) true)
          (fetchWithTimeout cfg oracle url cfg.maxRetries 0
            cfg.retryDelay).attempts := by
    unfold getResource
    simp [hce, hmiss, hload]
  refine ⟨by rw [hget], ?_, ?_⟩
  · rw [hget]
    exact mapSet_lookup_self _ _ _
  · intro oracle2 url2 body2
    rw [hget]
    have hlk : (mapSet st.cache (getCacheKey lang namespace_) []).lookup
        (getCacheKey lang namespace_) = some ([] : Payload) :=
      mapSet_lookup_self _ _ _
    refine ⟨?_, ?_, ?_⟩ <;> simp [getResource, hce, hlk]

/-- Witness for C10: empty cache, always-network-error transport. -/
theorem C10_empty_fallback_cached_witness :
    (⟨[], true⟩ : AdapterState).cacheEnabled = true ∧
    (⟨[], true⟩ : AdapterState).cache.lookup (getCacheKey "en" "t")
      = none ∧
    LoadFails fetchDefaults (fun (_ : Nat) => AttemptResult.netErr) "u"
      (Except.ok [("a", "1")]) ∧
    ((getResource fetchDefaults ⟨[], true⟩
        (fun (_ : Nat) => AttemptResult.netErr) "u"
        (Except.ok [("a", "1")]) "en" "t").payload = [] ∧
      (getResource fetchDefaults
        (getResource fetchDefaults ⟨[], true⟩
          (fun (_ : Nat) => AttemptResult.netErr) "u"
          (Except.ok [("a", "1")]) "en" "t").state
        (fun (_ : Nat) => AttemptResult.resp 200) "u2"
        (Except.ok [("b", "2")]) "en" "t").networkAttempts = 0) := by
  have h := C10_empty_fallback_cached fetchDefaults ⟨[], true⟩
    (fun (_ : Nat) => AttemptResult.netErr) "u" (Except.ok [("a", "1")])
    "en" "t" rfl rfl (Or.inl rfl)
  exact ⟨rfl, rfl, Or.inl rfl,
    h.1, (h.2.2 (fun (_ : Nat) => AttemptResult.resp 200) "u2"
      (Except.ok [("b", "2")])).2.1⟩

/-- Claim C8: after `set(k, v, 500)` at time `t0`, a `get(k)` strictly
before `t0 + 500` returns `v`; a `get(k)` strictly after `t0 + 500`
returns `undefined` and evicts the entry; and `set` with ttl 0, or with
ttl omitted on a default-constructed cache (`defaultMaxAge = 0`), stores
an entry that never expires under time. -/
theorem C8_ttl_expiry {K V : Type} [DecidableEq K] (c : SimpleCache K V)
    (k : K) (v : V) (t0 t1 t2 t3 : Nat)
    (h1 : t1 < t0 + 500) (h2 : t0 + 500 < t2) (hd : c.defaultMaxAge = 0) :
    ((c.set t0 k v (some 500)).get t1 k).1 = some v ∧
    ((c.set t0 k v (some 500)).get t2 k).1 = none ∧
    ((c.set t0 k v (some 500)).get t2 k).2.cache.lookup k = none ∧
    ((c.set t0 k v (some 0)).get t3 k).1 = some v ∧
    ((c.set t0 k v none).get t3 k).1 = some v := by
  have hset : (c.set t0 k v (some 500)).cache.lookup k
      = some ⟨v, some (t0 + 500)⟩ := mapSet_lookup_self _ _ _
  have hnot : ¬ t0 + 500 < t1 := by omega
  refine ⟨?_, ?_, ?_, ?_, ?_⟩
  · simp [SimpleCache.get, hset, hnot]
  · simp [SimpleCache.get, hset, h2]
  · simp only [SimpleCache.get, hset, if_pos h2]
    exact mapDelete_lookup_self _ _
  · have h0 : (c.set t0 k v (some 0)).cache.lookup k
        = some ⟨v, none⟩ := mapSet_lookup_self _ _ _
    simp [SimpleCache.get, h0]
  · have h0 : (c.set t0 k v none).cache.lookup k
        = some ⟨v, none⟩ := by
      have := mapSet_lookup_self c.cache k
        (⟨v, if c.defaultMaxAge > 0 then some (t0 + c.defaultMaxAge)
          else none⟩ : CacheItem V)
      simpa [SimpleCache.set, hd] using this
    simp [SimpleCache.get, h0]

/-- Witness for C8 on a default-constructed `SimpleCache String String`
at concrete times 0 / 499 / 501. -/
theorem C8_ttl_expiry_witness :
    (499 < 0 + 500) ∧ (0 + 500 < 501) ∧
    ((⟨0, []⟩ : SimpleCache String String).defaultMaxAge = 0) ∧
    ((((⟨0, []⟩ : SimpleCache String String).set 0 "k" "v"
        (some 500)).get 499 "k").1 = some "v" ∧
      ((((⟨0, []⟩ : SimpleCache String String).set 0 "k" "v"
        (some 500)).get 501 "k").1 = none) ∧
      ((((⟨0, []⟩ : SimpleCache String String).set 0 "k" "v"
        none).get 7 "k").1 = some "v")) := by
  have h := C8_ttl_expiry (⟨0, []⟩ : SimpleCache String String)
    "k" "v" 0 499 501 7 (by decide) (by decide) rfl
  exact ⟨by decide, by decide, rfl, h.1, h.2.1, h.2.2.2.2⟩

/-! ## Cache key injectivity (claim C9) -/

theorem append_dot_inj (l₁ : List Char) :
    ∀ (l₂ n₁ n₂ : List Char), ('.' : Char) ∉ l₁ → ('.' : Char) ∉ l₂ →
      l₁ ++ '.' :: n₁ = l₂ ++ '.' :: n₂ → l₁ = l₂ ∧ n₁ = n₂ := by
  induction l₁ with
  | nil =>
    intro l₂ n₁ n₂ _ h₂ h
    cases l₂ with
    | nil => simpa using h
    | cons b t =>
      simp only [List.nil_append, List.cons_append, List.cons.injEq] at h
      exact absurd (h.1 ▸ List.mem_cons_self b t) h₂
  | cons a t ih =>
    intro l₂ n₁ n₂ h₁ h₂ h
    cases l₂ with
    | nil =>
      simp only [List.cons_append, List.nil_append, List.cons.injEq] at h
      exact absurd (h.1 ▸ List.mem_cons_self a t) h₁
    | cons b t₂ =>
      simp only [List.cons_append, List.cons.injEq] at h
      have ht := ih t₂ n₁ n₂ (fun hm => h₁ (List.mem_cons_of_mem a hm))
        (fun hm => h₂ (List.mem_cons_of_mem b hm)) h.2
      exact ⟨by rw [h.1, ht.1], ht.2⟩

theorem getCacheKey_data (lang namespace_ : String) :
    (getCacheKey lang namespace_).data
      = lang.data ++ '.' :: namespace_.data := by
  simp [getCacheKey, String.data_append]

theorem getCacheKey_inj (l₁ n₁ l₂ n₂ : String)
    (h₁ : ('.' : Char) ∉ l₁.data) (h₂ : ('.' : Char) ∉ l₂.data)
    (h : getCacheKey l₁ n₁ = getCacheKey l₂ n₂) : l₁ = l₂ ∧ n₁ = n₂ := by
  have hd : l₁.data ++ '.' :: n₁.data = l₂.data ++ '.' :: n₂.data := by
    have := congrArg String.data h
    rwa [getCacheKey_data, getCacheKey_data] at this
  have := append_dot_inj l₁.data l₂.data n₁.data n₂.data h₁ h₂ hd
  exact ⟨String.ext this.1, String.ext this.2⟩

theorem lookup_filter_prop {K A : Type} [DecidableEq K]
    (l : List (K × A)) (q : K → Bool) (k : K) :
    (l.filter (fun p => q p.1)).lookup k
      = if q k then l.lookup k else none := by
  induction l with
  | nil => simp
  | cons p t ih =>
    obtain ⟨a, b⟩ := p
    by_cases hq : q a
    · by_cases hk : k = a
      · subst hk
        simp [List.filter_cons, hq, List.lookup_cons, ih]
      · simp [List.filter_cons, hq, List.lookup_cons, beq_false_of_ne hk, ih]
    · by_cases hk : k = a
      · subst hk
        simp only [List.filter_cons, Bool.not_eq_true] at *
        simp [hq, ih]
      · simp only [List.filter_cons] at *
        simp [hq, List.lookup_cons, beq_false_of_ne hk, ih]

theorem dot_prefix_iff (l l' n' : List Char)
    (hl : ('.' : Char) ∉ l) (hl' : ('.' : Char) ∉ l') :
    (l ++ ['.']).isPrefixOf (l' ++ '.' :: n') = true ↔ l = l' := by
  rw [List.isPrefixOf_iff_prefix]
  constructor
  · rintro ⟨t, ht⟩
    have h : l ++ '.' :: t = l' ++ '.' :: n' := by
      simpa [List.append_assoc] using ht
    exact (append_dot_inj l l' t n' hl hl' h).1
  · rintro rfl
    exact ⟨n', by simp⟩

/-- Claim C9 (counterexample): the cache-key computation
`lang + "." + namespace` is not injective on pairs: the two distinct
pairs ("a.b", "c") and ("a", "b.c") map to the same key "a.b.c". -/
theorem C9_key_collision :
    getCacheKey "a.b" "c" = getCacheKey "a" "b.c" ∧
    ¬ ("a.b" = "a" ∧ "c" = "b.c") := by
  constructor
  · rfl
  · intro h
    exact absurd h.1 (by decide)

/-- Claim C9 (amended): provided languages contain no '.' character and
the strings involved are truthy (nonempty — an empty language or
namespace makes the source's `clearCache` fall into a broader branch),
the key computation is injective on pairs, so a cache write or a
single-key invalidation for one (language, namespace) pair never
replaces or evicts the entry of any other pair, and group invalidation
by language removes exactly the entries of that language. Without the
dot restriction the property fails (see the collision above). -/
theorem C9_key_isolation (st : AdapterState) (l₁ n₁ l₂ n₂ l l' n' : String)
    (p : Payload)
    (h₁ : ('.' : Char) ∉ l₁.data) (h₂ : ('.' : Char) ∉ l₂.data)
    (hl : ('.' : Char) ∉ l.data) (hl' : ('.' : Char) ∉ l'.data)
    (hl₁ : l₁ ≠ "") (hn₁ : n₁ ≠ "") (hltr : l ≠ "")
    (hne : ¬ (l₁ = l₂ ∧ n₁ = n₂)) :
    getCacheKey l₁ n₁ ≠ getCacheKey l₂ n₂ ∧
    (mapSet st.cache (getCacheKey l₁ n₁) p).lookup (getCacheKey l₂ n₂)
      = st.cache.lookup (getCacheKey l₂ n₂) ∧
    (clearCache st (some l₁) (some n₁)).cache.lookup (getCacheKey l₂ n₂)
      = st.cache.lookup (getCacheKey l₂ n₂) ∧
    (clearCache st (some l) none).cache.lookup (getCacheKey l' n')
      = (if l' = l then none else st.cache.lookup (getCacheKey l' n')) := by
  have hkne : getCacheKey l₂ n₂ ≠ getCacheKey l₁ n₁ := by
    intro h
    exact hne ⟨(getCacheKey_inj l₁ n₁ l₂ n₂ h₁ h₂ h.symm).1,
      (getCacheKey_inj l₁ n₁ l₂ n₂ h₁ h₂ h.symm).2⟩
  have hc3 : (clearCache st (some l₁) (some n₁)).cache
      = mapDelete st.cache (getCacheKey l₁ n₁) := by
    simp [clearCache, jsTruthy, beq_false_of_ne hl₁, beq_false_of_ne hn₁]
  have hc4 : (clearCache st (some l) none).cache
      = st.cache.filter
          (fun q => !(l ++ ".").data.isPrefixOf q.1.data) := by
    simp [clearCache, jsTruthy, beq_false_of_ne hltr]
  refine ⟨Ne.symm hkne, mapSet_lookup_ne _ _ _ _ hkne,
    by rw [hc3]; exact mapDelete_lookup_ne _ _ _ hkne, ?_⟩
  rw [hc4]
  rw [lookup_filter_prop st.cache
    (fun key => !(l ++ ".").data.isPrefixOf key.data) (getCacheKey l' n')]
  have hdata : (l ++ ".").data = l.data ++ ['.'] := by
    simp [String.data_append]
  have hpre : ((l ++ ".").data.isPrefixOf (getCacheKey l' n').data) = true
      ↔ l.data = l'.data := by
    rw [hdata, getCacheKey_data]
    exact dot_prefix_iff l.data l'.data n'.data hl hl'
  by_cases heq : l' = l
  · subst heq
    have ht : ((l' ++ ".").data.isPrefixOf (getCacheKey l' n').data)
        = true := hpre.2 rfl
    have ht' : l'.data ++ ['.'] <+: (getCacheKey l' n').data := by
      rw [← List.isPrefixOf_iff_prefix, ← hdata]
      exact ht
    rw [if_neg (by simp [ht']), if_pos rfl]
  · have hf : ¬ ((l ++ ".").data.isPrefixOf (getCacheKey l' n').data
        = true) := fun hc => heq (String.ext (hpre.1 hc)).symm
    simp only [Bool.not_eq_true] at hf
    have hf' : (l.data ++ ['.']).isPrefixOf (getCacheKey l' n').data
        = false := by
      rw [← hdata]
      exact hf
    rw [if_pos (by simp [hf']), if_neg heq]

/-- Witness for C9 on dot-free, nonempty languages "en" and "fr". -/
theorem C9_key_isolation_witness :
    (('.' : Char) ∉ "en".data) ∧ (('.' : Char) ∉ "fr".data) ∧
    ("en" ≠ "") ∧ ("a" ≠ "") ∧
    ¬ ("en" = "fr" ∧ "a" = "b") ∧
    (getCacheKey "en" "a" ≠ getCacheKey "fr" "b" ∧
      (mapSet (⟨[], true⟩ : AdapterState).cache (getCacheKey "en" "a")
          [("x", "1")]).lookup (getCacheKey "fr" "b")
        = (⟨[], true⟩ : AdapterState).cache.lookup (getCacheKey "fr" "b") ∧
      (clearCache (⟨[], true⟩ : AdapterState) (some "en")
          (some "a")).cache.lookup (getCacheKey "fr" "b")
        = (⟨[], true⟩ : AdapterState).cache.lookup (getCacheKey "fr" "b") ∧
      (clearCache (⟨[], true⟩ : AdapterState) (some "en")
          none).cache.lookup (getCacheKey "fr" "b")
        = (if "fr" = "en" then none
            else (⟨[], true⟩ : AdapterState).cache.lookup
              (getCacheKey "fr" "b"))) :=
  ⟨by decide, by decide, by decide, by decide, by decide,
    C9_key_isolation ⟨[], true⟩ "en" "a" "fr" "b" "en" "fr" "b"
      [("x", "1")] (by decide) (by decide) (by decide) (by decide)
      (by decide) (by decide) (by decide) (by decide)⟩

/-! ## Reference semantics: heap model (claim C1)

JS objects are references into a heap. `JSON.parse(JSON.stringify(x))`
allocates a fresh object with equal content (`Heap.alloc` of the read
value); returning a stored object without copying returns its address.
Mutation by a caller is `Heap.write` through the address it received. -/

/-- A heap of payload objects: the next fresh address and the store
(later writes shadow earlier ones). -/
structure Heap where
  next : Nat
  mem : List (Nat × Payload)
deriving Repr

namespace Heap

/-- Allocate a fresh object holding `p`; returns its address. -/
def alloc (h : Heap) (p : Payload) : Nat × Heap :=
  (h.next, ⟨h.next + 1, (h.next, p) :: h.mem⟩)

/-- Dereference an address (unallocated addresses read as `{}`). -/
def read (h : Heap) (a : Nat) : Payload :=
  (h.mem.lookup a).getD []

/-- Mutate the object at address `a` in place. -/
def write (h : Heap) (a : Nat) (p : Payload) : Heap :=
  ⟨h.next, (a, p) :: h.mem⟩

theorem read_alloc_self (h : Heap) (p : Payload) :
    (h.alloc p).2.read (h.alloc p).1 = p := by
  simp [alloc, read, List.lookup_cons]

theorem read_alloc_ne (h : Heap) (p : Payload) (a : Nat)
    (ha : a ≠ h.next) : (h.alloc p).2.read a = h.read a := by
  simp [alloc, read, List.lookup_cons, beq_false_of_ne ha]

theorem read_write_ne (h : Heap) (a b : Nat) (p : Payload)
    (hab : a ≠ b) : (h.write b p).read a = h.read a := by
  simp [write, read, List.lookup_cons, beq_false_of_ne hab]

end Heap

/-- `BaseStorageAdapter` over the heap: the cache maps cache keys to the
addresses of the entries it owns. -/
structure AdapterH where
  heap : Heap
  cache : List (String × Nat)
  cacheEnabled : Bool

/-- Well-formedness: every address the cache holds was allocated. -/
def WFh (st : AdapterH) : Prop :=
  ∀ k a, st.cache.lookup k = some a → a < st.heap.next

/-- `BaseStorageAdapter.getResource` at the reference level, for the
default configuration (no custom `handleError`, under which
`loadResource` never throws and the catch branch is dead): on a cache
hit, return `JSON.parse(JSON.stringify(cache[key]))` — a fresh copy of
the stored object; on a miss with caching on, store one fresh copy of
the loaded payload and return a second, independent fresh copy; with
caching off, return one fresh copy. -/
def getResourceH (st : AdapterH) (lang namespace_ : String)
    (loaded : Payload) : Nat × AdapterH :=
  let cacheKey := getCacheKey lang namespace_
  match st.cacheEnabled, st.cache.lookup cacheKey with
  | true, some a =>
    let ar := st.heap.alloc (st.heap.read a)
    (ar.1, ⟨ar.2, st.cache, st.cacheEnabled⟩)
  | true, none =>
    let arStore := st.heap.alloc loaded
    let arRet := arStore.2.alloc loaded
    (arRet.1, ⟨arRet.2, mapSet st.cache cacheKey arStore.1,
      st.cacheEnabled⟩)
  | false, _ =>
    let arRet := st.heap.alloc loaded
    (arRet.1, ⟨arRet.2, st.cache, st.cacheEnabled⟩)

theorem getResourceH_hit (st : AdapterH) (lang namespace_ : String)
    (loaded : Payload) (a : Nat) (hce : st.cacheEnabled = true)
    (hlk : st.cache.lookup (getCacheKey lang namespace_) = some a) :
    getResourceH st lang namespace_ loaded
      = (st.heap.next,
          ⟨⟨st.heap.next + 1, (st.heap.next, st.heap.read a) :: st.heap.mem⟩,
            st.cache, st.cacheEnabled⟩) := by
  unfold getResourceH
  simp [hce, hlk, Heap.alloc]

theorem getResourceH_miss (st : AdapterH) (lang namespace_ : String)
    (loaded : Payload) (hce : st.cacheEnabled = true)
    (hlk : st.cache.lookup (getCacheKey lang namespace_) = none) :
    getResourceH st lang namespace_ loaded
      = (st.heap.next + 1,
          ⟨⟨st.heap.next + 2, (st.heap.next + 1, loaded)
              :: (st.heap.next, loaded) :: st.heap.mem⟩,
            mapSet st.cache (getCacheKey lang namespace_) st.heap.next,
            st.cacheEnabled⟩) := by
  unfold getResourceH
  simp [hce, hlk, Heap.alloc]

/-- Claim C1 (amended, storage-adapter boundary): with caching enabled,
two consecutive `getResource` calls for the same key return payloads at
fresh, pairwise-distinct addresses that are also distinct from the
stored entry's address, the two returned payloads are deep-equal, and
mutating either returned payload (writing through its address) changes
neither the other returned copy nor the stored entry. -/
theorem C1_storage_adapter_no_aliasing (st : AdapterH)
    (lang namespace_ : String) (loaded1 loaded2 : Payload)
    (a1 a2 : Nat) (st1 st2 : AdapterH)
    (hwf : WFh st) (hce : st.cacheEnabled = true)
    (h1 : getResourceH st lang namespace_ loaded1 = (a1, st1))
    (h2 : getResourceH st1 lang namespace_ loaded2 = (a2, st2)) :
    ∃ aStore,
      st2.cache.lookup (getCacheKey lang namespace_) = some aStore ∧
      a1 ≠ a2 ∧ aStore ≠ a1 ∧ aStore ≠ a2 ∧
      st2.heap.read a1 = st2.heap.read a2 ∧
      ∀ p : Payload,
        (st2.heap.write a1 p).read a2 = st2.heap.read a2 ∧
        (st2.heap.write a1 p).read aStore = st2.heap.read aStore ∧
        (st2.heap.write a2 p).read aStore = st2.heap.read aStore := by
  cases hlk : st.cache.lookup (getCacheKey lang namespace_) with
  | some a =>
    have ha : a < st.heap.next := hwf _ _ hlk
    rw [getResourceH_hit st lang namespace_ loaded1 a hce hlk] at h1
    injection h1 with h1a h1b
    subst h1a
    subst h1b
    rw [getResourceH_hit
      ⟨⟨st.heap.next + 1, (st.heap.next, st.heap.read a) :: st.heap.mem⟩,
        st.cache, st.cacheEnabled⟩ lang namespace_ loaded2 a hce hlk] at h2
    injection h2 with h2a h2b
    subst h2a
    subst h2b
    dsimp only at *
    have hx1 : Heap.read
        ⟨st.heap.next + 1, (st.heap.next, st.heap.read a) :: st.heap.mem⟩ a
        = st.heap.read a := by
      simp [Heap.read, List.lookup_cons,
        beq_false_of_ne (show a ≠ st.heap.next by omega)]
    refine ⟨a, hlk, by omega, by omega, by omega, ?_, ?_⟩
    · simp [Heap.read, List.lookup_cons, hx1,
        beq_false_of_ne (show st.heap.next ≠ st.heap.next + 1 by omega),
        beq_false_of_ne (show a ≠ st.heap.next by omega)]
    · intro p
      exact ⟨Heap.read_write_ne _ _ _ _ (by omega),
        Heap.read_write_ne _ _ _ _ (by omega),
        Heap.read_write_ne _ _ _ _ (by omega)⟩
  | none =>
    rw [getResourceH_miss st lang namespace_ loaded1 hce hlk] at h1
    injection h1 with h1a h1b
    subst h1a
    subst h1b
    have hlk1 : (mapSet st.cache (getCacheKey lang namespace_)
        st.heap.next).lookup (getCacheKey lang namespace_)
        = some st.heap.next := mapSet_lookup_self _ _ _
    rw [getResourceH_hit
      ⟨⟨st.heap.next + 2, (st.heap.next + 1, loaded1)
          :: (st.heap.next, loaded1) :: st.heap.mem⟩,
        mapSet st.cache (getCacheKey lang namespace_) st.heap.next,
        st.cacheEnabled⟩ lang namespace_ loaded2 st.heap.next hce hlk1]
      at h2
    injection h2 with h2a h2b
    subst h2a
    subst h2b
    dsimp only at *
    have hx1 : Heap.read
        ⟨st.heap.next + 2, (st.heap.next + 1, loaded1)
          :: (st.heap.next, loaded1) :: st.heap.mem⟩ st.heap.next
        = loaded1 := by
      simp [Heap.read, List.lookup_cons,
        beq_false_of_ne (show st.heap.next ≠ st.heap.next + 1 by omega)]
    refine ⟨st.heap.next, hlk1, by omega, by omega, by omega, ?_, ?_⟩
    · simp [Heap.read, List.lookup_cons, hx1,
        beq_false_of_ne (show st.heap.next + 1 ≠ st.heap.next + 2 by omega),
        beq_false_of_ne (show st.heap.next ≠ st.heap.next + 1 by omega)]
    · intro p
      exact ⟨Heap.read_write_ne _ _ _ _ (by omega),
        Heap.read_write_ne _ _ _ _ (by omega),
        Heap.read_write_ne _ _ _ _ (by omega)⟩

/-- Witness for C1 (amended claim) on an initially empty adapter. -/
theorem C1_storage_adapter_no_aliasing_witness :
    WFh ⟨⟨0, []⟩, [], true⟩ ∧
    (⟨⟨0, []⟩, [], true⟩ : AdapterH).cacheEnabled = true ∧
    (∃ aStore,
      ((getResourceH (getResourceH ⟨⟨0, []⟩, [], true⟩ "en" "t"
          [("a", "1")]).2 "en" "t" [("b", "2")]).2).cache.lookup
        (getCacheKey "en" "t") = some aStore ∧
      (getResourceH ⟨⟨0, []⟩, [], true⟩ "en" "t" [("a", "1")]).1
        ≠ (getResourceH (getResourceH ⟨⟨0, []⟩, [], true⟩ "en" "t"
            [("a", "1")]).2 "en" "t" [("b", "2")]).1 ∧
      aStore ≠ (getResourceH ⟨⟨0, []⟩, [], true⟩ "en" "t"
          [("a", "1")]).1 ∧
      aStore ≠ (getResourceH (getResourceH ⟨⟨0, []⟩, [], true⟩ "en" "t"
          [("a", "1")]).2 "en" "t" [("b", "2")]).1 ∧
      ((getResourceH (getResourceH ⟨⟨0, []⟩, [], true⟩ "en" "t"
          [("a", "1")]).2 "en" "t" [("b", "2")]).2).heap.read
        (getResourceH ⟨⟨0, []⟩, [], true⟩ "en" "t" [("a", "1")]).1
        = ((getResourceH (getResourceH ⟨⟨0, []⟩, [], true⟩ "en" "t"
            [("a", "1")]).2 "en" "t" [("b", "2")]).2).heap.read
          (getResourceH (getResourceH ⟨⟨0, []⟩, [], true⟩ "en" "t"
            [("a", "1")]).2 "en" "t" [("b", "2")]).1 ∧
      ∀ p : Payload,
        (((getResourceH (getResourceH ⟨⟨0, []⟩, [], true⟩ "en" "t"
            [("a", "1")]).2 "en" "t" [("b", "2")]).2).heap.write
          (getResourceH ⟨⟨0, []⟩, [], true⟩ "en" "t" [("a", "1")]).1
          p).read (getResourceH (getResourceH ⟨⟨0, []⟩, [], true⟩ "en" "t"
            [("a", "1")]).2 "en" "t" [("b", "2")]).1
          = ((getResourceH (getResourceH ⟨⟨0, []⟩, [], true⟩ "en" "t"
              [("a", "1")]).2 "en" "t" [("b", "2")]).2).heap.read
            (getResourceH (getResourceH ⟨⟨0, []⟩, [], true⟩ "en" "t"
              [("a", "1")]).2 "en" "t" [("b", "2")]).1 ∧
        (((getResourceH (getResourceH ⟨⟨0, []⟩, [], true⟩ "en" "t"
            [("a", "1")]).2 "en" "t" [("b", "2")]).2).heap.write
          (getResourceH ⟨⟨0, []⟩, [], true⟩ "en" "t" [("a", "1")]).1
          p).read aStore
          = ((getResourceH (getResourceH ⟨⟨0, []⟩, [], true⟩ "en" "t"
              [("a", "1")]).2 "en" "t" [("b", "2")]).2).heap.read aStore ∧
        (((getResourceH (getResourceH ⟨⟨0, []⟩, [], true⟩ "en" "t"
            [("a", "1")]).2 "en" "t" [("b", "2")]).2).heap.write
          (getResourceH (getResourceH ⟨⟨0, []⟩, [], true⟩ "en" "t"
            [("a", "1")]).2 "en" "t" [("b", "2")]).1
          p).read aStore
          = ((getResourceH (getResourceH ⟨⟨0, []⟩, [], true⟩ "en" "t"
              [("a", "1")]).2 "en" "t" [("b", "2")]).2).heap.read aStore) :=
  ⟨fun _ _ h => Option.noConfusion h, rfl,
    C1_storage_adapter_no_aliasing ⟨⟨0, []⟩, [], true⟩ "en" "t"
      [("a", "1")] [("b", "2")]
      (getResourceH ⟨⟨0, []⟩, [], true⟩ "en" "t" [("a", "1")]).1
      (getResourceH (getResourceH ⟨⟨0, []⟩, [], true⟩ "en" "t"
        [("a", "1")]).2 "en" "t" [("b", "2")]).1
      (getResourceH ⟨⟨0, []⟩, [], true⟩ "en" "t" [("a", "1")]).2
      (getResourceH (getResourceH ⟨⟨0, []⟩, [], true⟩ "en" "t"
        [("a", "1")]).2 "en" "t" [("b", "2")]).2
      (fun _ _ h => Option.noConfusion h) rfl rfl rfl⟩

/-- Claim C1 (counterexample): `SimpleCache.get` returns the stored
`item.value` itself, not a copy. With payload references as the cached
values, the reference `get` returns is the stored entry's own reference
(address 0 here), so a caller mutating the returned payload (writing
through that reference) changes the stored entry's payload. -/
theorem C1_simplecache_alias_counterexample :
    (((⟨0, [("k", ⟨0, none⟩)]⟩ : SimpleCache String Nat).get 5 "k").1
      = some 0) ∧
    ((⟨0, [("k", ⟨0, none⟩)]⟩ : SimpleCache String Nat).cache.lookup "k"
      = some ⟨0, none⟩) ∧
    ((⟨1, [(0, [("greeting", "hello")])]⟩ : Heap).write 0
        [("greeting", "bye")]).read 0 = [("greeting", "bye")] ∧
    (⟨1, [(0, [("greeting", "hello")])]⟩ : Heap).read 0
      = [("greeting", "hello")] ∧
    ([("greeting", "bye")] : Payload) ≠ [("greeting", "hello")] :=
  ⟨rfl, rfl, rfl, rfl, by decide⟩

end I18nMaestro
